import Mathlib

/-!
# Verification of the duckdb-wasm connection / result-stream protocol

This file gives a shallow embedding of the query-streaming core of the
repository (the classes `AsyncDuckDBConnection`, `AsyncResultStreamIterator`,
`AsyncPreparedStatement` from the parallel module and `DuckDBConnection`,
`ResultStreamIterator`, `PreparedStatement` from the bindings module) and
proves the testable properties of its specification against that embedding.

Modelling conventions:
* A result buffer (`Uint8Array`) is a `List Nat`; `length == 0` is the
  end-of-stream sentinel exactly as in the source.
* The bindings surface is an oracle: each operation is a function of the
  number of calls made to that operation so far (`startPendingQuery` is a
  function of the `allowStreamResult` flag it receives, since it is called
  at most once per `send`).  Connection ids, statement ids, the query text
  and prepared-statement parameters are opaque pass-through data in the
  source and are elided from the oracles.
* `CallCounts` counts the calls made to each bindings operation, so that
  claims about which operations are (not) invoked become statements about
  the counts threaded through the embedded functions.
* The unbounded `while` loops of the source (`while (header == null)`,
  `while (buffer == null)`) are embedded with an explicit fuel argument;
  a `none` result means the loop did not finish within the given fuel.
  No claim depends on the behaviour at fuel exhaustion.
-/

/-- A result buffer (`Uint8Array` in the source); the zero-length buffer is
the end-of-stream sentinel. -/
abbrev Buffer := List Nat

/-- Counts of the calls made to each bindings-surface operation. -/
structure CallCounts where
  starts : Nat
  polls : Nat
  detChecks : Nat
  fetches : Nat
  prepSends : Nat
deriving DecidableEq, Repr

/-- No bindings call made yet. -/
def CallCounts.zero : CallCounts := ⟨0, 0, 0, 0, 0⟩

/-- One step of an iterator: `done` is the `done` field of the JS
`IteratorResult`, `value` is its `value` (`none` models JS `null`). -/
structure IterResult where
  done : Bool
  value : Option Buffer
deriving DecidableEq, Repr

/-- Oracle for the asynchronous bindings surface (`AsyncDuckDB`):
each operation maps its call index (or, for `startPendingQuery`, the
`allowStreamResult` flag it is passed) to the value the source receives. -/
structure AsyncDuckDB where
  startPendingQuery : Bool → Option Buffer
  pollPendingQuery : Nat → Option Buffer
  isDetached : Nat → Bool
  fetchQueryResults : Nat → Option Buffer
  sendPrepared : Buffer

/-- Result of one call to the synchronous `pollPendingQuery`: it either
returns a header / absent, or throws an error with a message. -/
inductive PollResult where
  | ok (h : Option Buffer)
  | err (msg : String)
deriving DecidableEq, Repr

/-- Oracle for the synchronous bindings surface (`DuckDBBindings`). -/
structure DuckDBBindings where
  startPendingQuery : Bool → Option Buffer
  pollPendingQuery : Nat → PollResult
  fetchQueryResults : Nat → Option Buffer
  sendPrepared : Buffer

/-- State of `AsyncResultStreamIterator`: the stored header, the `_first`
and `_depleted` flags, and the `_inFlight` slot.  `inFlight = some r`
models a held promise that will resolve to `r`; the value is captured at
issue time because the oracle determines it from the call index. -/
structure AsyncResultStreamIterator where
  header : Buffer
  first : Bool
  depleted : Bool
  inFlight : Option (Option Buffer)
deriving DecidableEq, Repr

/-- The constructor `new AsyncResultStreamIterator(db, conn, header)`. -/
def AsyncResultStreamIterator.init (h : Buffer) : AsyncResultStreamIterator :=
  ⟨h, true, false, none⟩

/-- State of the blocking `ResultStreamIterator`. -/
structure ResultStreamIterator where
  header : Buffer
  first : Bool
  depleted : Bool
deriving DecidableEq, Repr

/-- The constructor `new ResultStreamIterator(bindings, conn, header)`. -/
def ResultStreamIterator.init (h : Buffer) : ResultStreamIterator :=
  ⟨h, true, false⟩

/-- The retry loop `while (buffer == null) buffer = fetchQueryResults(conn)`
(entered with `buffer == null`, so it fetches at least once): `i` is the
number of fetch calls made so far; returns the first non-absent buffer and
the updated fetch-call count. -/
def fetchWhileAbsent (fetch : Nat → Option Buffer) : Nat → Nat → Option (Buffer × Nat)
  | 0, _ => none
  | Nat.succ fuel, i =>
    match fetch i with
    | some b => some (b, i + 1)
    | none => fetchWhileAbsent fetch fuel (i + 1)

/-- Lines 135-143 of `AsyncResultStreamIterator.next`: await the in-flight
fetch if one is held (nulling the slot), then run the retry loop while the
buffer is absent. -/
def resolveChunk (fetch : Nat → Option Buffer) (fuel : Nat)
    (pending : Option (Option Buffer)) (i : Nat) : Option (Buffer × Nat) :=
  match pending with
  | some (some b) => some (b, i)
  | some none => fetchWhileAbsent fetch fuel i
  | none => fetchWhileAbsent fetch fuel i

/-- `AsyncResultStreamIterator.next`: emit the header first, then the
depleted short-circuit, then await/fetch a chunk; a zero-length buffer
flips `_depleted`, any other buffer triggers the eager prefetch of the
following chunk into `_inFlight`. -/
def AsyncResultStreamIterator.next (env : AsyncDuckDB) (fuel : Nat)
    (it : AsyncResultStreamIterator) (c : CallCounts) :
    Option (IterResult × AsyncResultStreamIterator × CallCounts) :=
  if it.first then
    some ({ done := false, value := some it.header }, { it with first := false }, c)
  else if it.depleted then
    some ({ done := true, value := none }, it, c)
  else
    match resolveChunk env.fetchQueryResults fuel it.inFlight c.fetches with
    | none => none
    | some (b, n) =>
      if b.length == 0 then
        some ({ done := true, value := some b },
              { it with inFlight := none, depleted := true },
              { c with fetches := n })
      else
        some ({ done := false, value := some b },
              { it with inFlight := some (env.fetchQueryResults n), depleted := false },
              { c with fetches := n + 1 })

/-- `ResultStreamIterator.next` (blocking variant): emit the header first,
then the depleted short-circuit, then the do/while fetch loop; a
zero-length buffer flips `_depleted`. -/
def ResultStreamIterator.next (fetch : Nat → Option Buffer) (fuel : Nat)
    (it : ResultStreamIterator) (c : CallCounts) :
    Option (IterResult × ResultStreamIterator × CallCounts) :=
  if it.first then
    some ({ done := false, value := some it.header }, { it with first := false }, c)
  else if it.depleted then
    some ({ done := true, value := none }, it, c)
  else
    match fetchWhileAbsent fetch fuel c.fetches with
    | none => none
    | some (b, n) =>
      some ({ done := b.length == 0, value := some b },
            { it with depleted := b.length == 0 },
            { c with fetches := n })

/-- Outcome of `AsyncDuckDBConnection.send`: either an iterator was
constructed, or the detached branch ran (`console.error(...)` followed by
`return undefined as any`). -/
inductive AsyncSendOutcome where
  | stream (it : AsyncResultStreamIterator)
  | undefinedResult
deriving DecidableEq, Repr

/-- The polling loop of `AsyncDuckDBConnection.send`
(`while (header == null) { if (isDetached()) ...; header = poll(); }`). -/
def asyncSendLoop (env : AsyncDuckDB) : Nat → CallCounts →
    Option (AsyncSendOutcome × CallCounts)
  | 0, _ => none
  | Nat.succ fuel, c =>
    if env.isDetached c.detChecks then
      some (AsyncSendOutcome.undefinedResult, { c with detChecks := c.detChecks + 1 })
    else
      match env.pollPendingQuery c.polls with
      | some h =>
        some (AsyncSendOutcome.stream (AsyncResultStreamIterator.init h),
              { c with detChecks := c.detChecks + 1, polls := c.polls + 1 })
      | none =>
        asyncSendLoop env fuel { c with detChecks := c.detChecks + 1, polls := c.polls + 1 }

/-- `AsyncDuckDBConnection.send(text, allowStreamResult)`: call
`startPendingQuery` once, then poll (checking `isDetached` before every
poll) until a header arrives, then construct the stream iterator. -/
def AsyncDuckDBConnection.send (env : AsyncDuckDB) (allowStreamResult : Bool)
    (fuel : Nat) : Option (AsyncSendOutcome × CallCounts) :=
  match env.startPendingQuery allowStreamResult with
  | some h =>
    some (AsyncSendOutcome.stream (AsyncResultStreamIterator.init h),
          { CallCounts.zero with starts := 1 })
  | none => asyncSendLoop env fuel { CallCounts.zero with starts := 1 }

/-- Calling `send(text)` with the `allowStreamResult` parameter omitted:
the source declares `allowStreamResult: boolean = false`, so the omitted
argument defaults to `false`. -/
def AsyncDuckDBConnection.sendDefault (env : AsyncDuckDB) (fuel : Nat) :
    Option (AsyncSendOutcome × CallCounts) :=
  AsyncDuckDBConnection.send env false fuel

/-- JS `String.prototype.startsWith` on character lists. -/
def charsStartWith : List Char → List Char → Bool
  | _, [] => true
  | [], _ :: _ => false
  | a :: as, b :: bs => a == b && charsStartWith as bs

/-- JS `String.prototype.includes` on character lists: some suffix of the
haystack starts with the needle. -/
def charsInclude : List Char → List Char → Bool
  | [], pat => pat.isEmpty
  | a :: as, pat => charsStartWith (a :: as) pat || charsInclude as pat

/-- JS `s.includes(pat)`. -/
def strIncludes (s pat : String) : Bool := charsInclude s.data pat.data

/-- The polling loop of the synchronous `DuckDBConnection.send`: each poll
either yields a header / absent or throws; a thrown error whose message
includes the worker-is-not-set marker is replaced by the
`Worker has been terminated` error, any other error is re-raised
unchanged. -/
def syncSendLoop (env : DuckDBBindings) : Nat → CallCounts →
    Option (Except String ResultStreamIterator × CallCounts)
  | 0, _ => none
  | Nat.succ fuel, c =>
    match env.pollPendingQuery c.polls with
    | PollResult.ok (some h) =>
      some (Except.ok (ResultStreamIterator.init h), { c with polls := c.polls + 1 })
    | PollResult.ok none => syncSendLoop env fuel { c with polls := c.polls + 1 }
    | PollResult.err msg =>
      if strIncludes msg "worker is not set!" then
        some (Except.error "Worker has been terminated", { c with polls := c.polls + 1 })
      else
        some (Except.error msg, { c with polls := c.polls + 1 })

/-- `DuckDBConnection.send(text, allowStreamResult)` (blocking variant). -/
def DuckDBConnection.send (env : DuckDBBindings) (allowStreamResult : Bool)
    (fuel : Nat) : Option (Except String ResultStreamIterator × CallCounts) :=
  match env.startPendingQuery allowStreamResult with
  | some h => some (Except.ok (ResultStreamIterator.init h), { CallCounts.zero with starts := 1 })
  | none => syncSendLoop env fuel { CallCounts.zero with starts := 1 }

/-- `DuckDBConnection.send(text)` with the defaulted flag. -/
def DuckDBConnection.sendDefault (env : DuckDBBindings) (fuel : Nat) :
    Option (Except String ResultStreamIterator × CallCounts) :=
  DuckDBConnection.send env false fuel

/-- `AsyncPreparedStatement.send(...params)`: one `sendPrepared` call, its
result wrapped directly in a fresh `AsyncResultStreamIterator`. -/
def AsyncPreparedStatement.send (env : AsyncDuckDB) :
    AsyncResultStreamIterator × CallCounts :=
  (AsyncResultStreamIterator.init env.sendPrepared,
   { CallCounts.zero with prepSends := 1 })

/-- `PreparedStatement.send(...params)` (blocking variant). -/
def PreparedStatement.send (env : DuckDBBindings) :
    ResultStreamIterator × CallCounts :=
  (ResultStreamIterator.init env.sendPrepared,
   { CallCounts.zero with prepSends := 1 })

/-- Drain the blocking iterator: call `next` up to `steps` times, collecting
every emitted element up to and including the first with `done = true`. -/
def drainSync (fetch : Nat → Option Buffer) (fuel : Nat) :
    Nat → ResultStreamIterator → CallCounts → Option (List IterResult)
  | 0, _, _ => none
  | Nat.succ steps, it, c =>
    match ResultStreamIterator.next fetch fuel it c with
    | none => none
    | some (r, it2, c2) =>
      if r.done then some [r]
      else
        match drainSync fetch fuel steps it2 c2 with
        | none => none
        | some rs => some (r :: rs)

/-- Drain the prefetching iterator, as `drainSync`. -/
def drainAsync (env : AsyncDuckDB) (fuel : Nat) :
    Nat → AsyncResultStreamIterator → CallCounts → Option (List IterResult)
  | 0, _, _ => none
  | Nat.succ steps, it, c =>
    match AsyncResultStreamIterator.next env fuel it c with
    | none => none
    | some (r, it2, c2) =>
      if r.done then some [r]
      else
        match drainAsync env fuel steps it2 c2 with
        | none => none
        | some rs => some (r :: rs)

/-- The chunk sequence the fetch oracle offers from call index `i` onward:
the non-absent buffers in order, up to and including the first zero-length
one; `none` if no zero-length buffer appears within `fuel` calls. -/
def chunkSeq (fetch : Nat → Option Buffer) : Nat → Nat → Option (List Buffer)
  | _, 0 => none
  | i, Nat.succ fuel =>
    match fetch i with
    | none => chunkSeq fetch (i + 1) fuel
    | some b =>
      if b.length = 0 then some [b]
      else
        match chunkSeq fetch (i + 1) fuel with
        | none => none
        | some bs => some (b :: bs)

/-! ## Helper lemmas about the fetch loop and the offered chunk sequence -/

theorem chunkSeq_ne_nil (fetch : Nat → Option Buffer) :
    ∀ (fuel i : Nat) (cs : List Buffer),
      chunkSeq fetch i fuel = some cs → cs ≠ [] := by
  intro fuel
  induction fuel with
  | zero => intro i cs h; simp [chunkSeq] at h
  | succ fuel ih =>
    intro i cs h
    unfold chunkSeq at h
    cases hf : fetch i with
    | none => rw [hf] at h; exact ih (i + 1) cs h
    | some b =>
      rw [hf] at h
      by_cases hb : b.length = 0
      · simp [hb] at h; subst h; simp
      · simp [hb] at h
        cases htail : chunkSeq fetch (i + 1) fuel with
        | none => rw [htail] at h; simp at h
        | some bs => rw [htail] at h; simp at h; rw [← h]; simp

theorem chunkSeq_mono (fetch : Nat → Option Buffer) :
    ∀ (fuel fuel2 i : Nat) (cs : List Buffer), fuel ≤ fuel2 →
      chunkSeq fetch i fuel = some cs → chunkSeq fetch i fuel2 = some cs := by
  intro fuel
  induction fuel with
  | zero => intro fuel2 i cs _ h; simp [chunkSeq] at h
  | succ fuel ih =>
    intro fuel2 i cs hle h
    obtain ⟨fuel2, rfl⟩ := Nat.exists_eq_succ_of_ne_zero (by omega : fuel2 ≠ 0)
    have hle2 : fuel ≤ fuel2 := by omega
    unfold chunkSeq at h ⊢
    cases hf : fetch i with
    | none => rw [hf] at h; exact ih fuel2 (i + 1) cs hle2 h
    | some b =>
      rw [hf] at h
      by_cases hb : b.length = 0
      · simp [hb] at h ⊢; exact h
      · simp [hb] at h ⊢
        cases htail : chunkSeq fetch (i + 1) fuel with
        | none => rw [htail] at h; simp at h
        | some bs =>
          rw [htail] at h
          simp at h
          rw [ih fuel2 (i + 1) bs hle2 htail]
          simp [h]

theorem fetchWhileAbsent_lt (fetch : Nat → Option Buffer) :
    ∀ (fuel i : Nat) (b : Buffer) (n : Nat),
      fetchWhileAbsent fetch fuel i = some (b, n) → i < n := by
  intro fuel
  induction fuel with
  | zero => intro i b n h; simp [fetchWhileAbsent] at h
  | succ fuel ih =>
    intro i b n h
    unfold fetchWhileAbsent at h
    cases hf : fetch i with
    | some b2 => rw [hf] at h; simp at h; omega
    | none => rw [hf] at h; have := ih (i + 1) b n h; omega

theorem fetchWhileAbsent_skips (fetch : Nat → Option Buffer) :
    ∀ (k fuel i : Nat) (b : Buffer),
      (∀ m, m < k → fetch (i + m) = none) → fetch (i + k) = some b →
      k < fuel → fetchWhileAbsent fetch fuel i = some (b, i + k + 1) := by
  intro k
  induction k with
  | zero =>
    intro fuel i b _ hk hfuel
    obtain ⟨fuel, rfl⟩ := Nat.exists_eq_succ_of_ne_zero (by omega : fuel ≠ 0)
    simp at hk
    unfold fetchWhileAbsent
    rw [hk]
  | succ k ih =>
    intro fuel i b habs hk hfuel
    obtain ⟨fuel, rfl⟩ := Nat.exists_eq_succ_of_ne_zero (by omega : fuel ≠ 0)
    have h0 : fetch i = none := by
      have := habs 0 (by omega)
      simpa using this
    unfold fetchWhileAbsent
    rw [h0]
    have habs2 : ∀ m, m < k → fetch (i + 1 + m) = none := by
      intro m hm
      have := habs (m + 1) (by omega)
      rw [show i + (m + 1) = i + 1 + m by omega] at this
      exact this
    have hk2 : fetch (i + 1 + k) = some b := by
      rw [show i + 1 + k = i + (k + 1) by omega]
      exact hk
    have := ih fuel (i + 1) b habs2 hk2 (by omega)
    rw [show i + (k + 1) + 1 = i + 1 + k + 1 by omega]
    exact this

theorem chunkSeq_cons (fetch : Nat → Option Buffer) :
    ∀ (fuel i : Nat) (b : Buffer) (bs : List Buffer),
      chunkSeq fetch i fuel = some (b :: bs) →
      ∃ j, fetchWhileAbsent fetch fuel i = some (b, j + 1) ∧ i ≤ j ∧
        (b.length = 0 → bs = []) ∧
        (b.length ≠ 0 → chunkSeq fetch (j + 1) fuel = some bs) := by
  intro fuel
  induction fuel with
  | zero => intro i b bs h; simp [chunkSeq] at h
  | succ fuel ih =>
    intro i b bs h
    unfold chunkSeq at h
    cases hf : fetch i with
    | some b2 =>
      rw [hf] at h
      by_cases hb : b2.length = 0
      · simp [hb] at h
        refine ⟨i, ?_, le_refl i, ?_, ?_⟩
        · unfold fetchWhileAbsent
          rw [hf, h.1]
        · intro _; exact h.2
        · intro hne; rw [← h.1] at hne; exact absurd hb hne
      · simp [hb] at h
        cases htail : chunkSeq fetch (i + 1) fuel with
        | none => rw [htail] at h; simp at h
        | some bs2 =>
          rw [htail] at h
          simp at h
          obtain ⟨hb2, hbs2⟩ := h
          subst hb2
          refine ⟨i, ?_, le_refl i, ?_, ?_⟩
          · unfold fetchWhileAbsent
            rw [hf]
          · intro h0; exact absurd h0 hb
          · intro _
            rw [hbs2] at htail
            exact chunkSeq_mono fetch fuel (fuel + 1) (i + 1) bs (by omega) htail
    | none =>
      rw [hf] at h
      obtain ⟨j, hloop, hij, hemp, hne⟩ := ih (i + 1) b bs h
      refine ⟨j, ?_, by omega, hemp, ?_⟩
      · unfold fetchWhileAbsent
        rw [hf, hloop]
      · intro hlen
        exact chunkSeq_mono fetch fuel (fuel + 1) (j + 1) bs (by omega) (hne hlen)

theorem chunkSeq_split (fetch : Nat → Option Buffer) :
    ∀ (fuel i : Nat) (cs : List Buffer),
      chunkSeq fetch i fuel = some cs →
      ∃ front, cs = front ++ [([] : Buffer)] ∧ ∀ b ∈ front, b ≠ ([] : Buffer) := by
  intro fuel
  induction fuel with
  | zero => intro i cs h; simp [chunkSeq] at h
  | succ fuel ih =>
    intro i cs h
    unfold chunkSeq at h
    cases hf : fetch i with
    | none => rw [hf] at h; exact ih (i + 1) cs h
    | some b =>
      rw [hf] at h
      by_cases hb : b.length = 0
      · simp [hb] at h
        have hbnil : b = [] := List.length_eq_zero.mp hb
        subst hbnil
        exact ⟨[], by rw [← h]; rfl, by simp⟩
      · simp [hb] at h
        cases htail : chunkSeq fetch (i + 1) fuel with
        | none => rw [htail] at h; simp at h
        | some bs =>
          rw [htail] at h
          simp at h
          subst h
          obtain ⟨front, hfr, hall⟩ := ih (i + 1) bs htail
          refine ⟨b :: front, ?_, ?_⟩
          · rw [hfr]; rfl
          · intro x hx
            rcases List.mem_cons.mp hx with hx | hx
            · subst hx
              intro hnil
              rw [hnil] at hb
              exact hb rfl
            · exact hall x hx

theorem chunkSeq_fuel_pos (fetch : Nat → Option Buffer) (fuel i : Nat)
    (cs : List Buffer) (h : chunkSeq fetch i fuel = some cs) : fuel ≠ 0 := by
  intro h0
  subst h0
  simp [chunkSeq] at h

/-- Relation between the `_inFlight` slot of the prefetching iterator, the
fetch-call count and the chunk sequence still to be delivered: either no
fetch is in flight and the oracle offers `cs` from the current call index,
or the fetch issued as call `k` is in flight, the call count is `k + 1`,
and the oracle offers `cs` from index `k`. -/
def pendingConsistent (fetch : Nat → Option Buffer) (fuel : Nat)
    (pending : Option (Option Buffer)) (i : Nat) (cs : List Buffer) : Prop :=
  (pending = none ∧ chunkSeq fetch i fuel = some cs) ∨
  (∃ k, pending = some (fetch k) ∧ i = k + 1 ∧ chunkSeq fetch k fuel = some cs)

theorem resolveChunk_step (fetch : Nat → Option Buffer) (fuel : Nat)
    (pending : Option (Option Buffer)) (i : Nat) (b : Buffer) (bs : List Buffer)
    (hpc : pendingConsistent fetch fuel pending i (b :: bs)) :
    ∃ n, resolveChunk fetch fuel pending i = some (b, n) ∧ i ≤ n ∧
      (b.length = 0 → bs = []) ∧
      (b.length ≠ 0 → chunkSeq fetch n fuel = some bs) := by
  rcases hpc with ⟨hp, hcs⟩ | ⟨k, hp, hik, hcs⟩
  · subst hp
    obtain ⟨j, hloop, hij, hemp, hne⟩ := chunkSeq_cons fetch fuel i b bs hcs
    exact ⟨j + 1, by simp [resolveChunk, hloop], by omega, hemp, hne⟩
  · subst hik
    obtain ⟨fuel, rfl⟩ :=
      Nat.exists_eq_succ_of_ne_zero (chunkSeq_fuel_pos fetch fuel k (b :: bs) hcs)
    cases hfk : fetch k with
    | some b2 =>
      rw [hfk] at hp
      subst hp
      unfold chunkSeq at hcs
      rw [hfk] at hcs
      by_cases hb2 : b2.length = 0
      · simp [hb2] at hcs
        obtain ⟨hbb, hbs⟩ := hcs
        subst hbb
        refine ⟨k + 1, by simp [resolveChunk], by omega, fun _ => hbs, fun hne => ?_⟩
        exact absurd hb2 hne
      · simp [hb2] at hcs
        cases htail : chunkSeq fetch (k + 1) fuel with
        | none => rw [htail] at hcs; simp at hcs
        | some bs2 =>
          rw [htail] at hcs
          simp at hcs
          obtain ⟨hbb, hbs⟩ := hcs
          subst hbb
          subst hbs
          refine ⟨k + 1, by simp [resolveChunk], by omega, fun h0 => absurd h0 hb2, fun _ => ?_⟩
          exact chunkSeq_mono fetch fuel (fuel + 1) (k + 1) bs2 (by omega) htail
    | none =>
      rw [hfk] at hp
      subst hp
      unfold chunkSeq at hcs
      rw [hfk] at hcs
      have hcs2 := chunkSeq_mono fetch fuel (fuel + 1) (k + 1) (b :: bs) (by omega) hcs
      obtain ⟨j, hloop, hij, hemp, hne⟩ := chunkSeq_cons fetch (fuel + 1) (k + 1) b bs hcs2
      exact ⟨j + 1, by simp [resolveChunk, hloop], by omega, hemp, hne⟩

/-- Draining the blocking iterator after the header has been emitted
delivers exactly the chunk sequence offered by the fetch oracle, each
chunk flagged final exactly when it is the zero-length sentinel. -/
theorem drainSync_ready (fetch : Nat → Option Buffer) (fuel : Nat) :
    ∀ (cs : List Buffer) (hd : Buffer) (c : CallCounts),
      chunkSeq fetch c.fetches fuel = some cs →
      drainSync fetch fuel cs.length ⟨hd, false, false⟩ c =
        some (cs.map fun b => { done := b.length == 0, value := some b }) := by
  intro cs
  induction cs with
  | nil =>
    intro hd c hcs
    exact absurd rfl (chunkSeq_ne_nil fetch fuel c.fetches [] hcs)
  | cons b bs ih =>
    intro hd c hcs
    obtain ⟨j, hloop, hij, hemp, hne⟩ := chunkSeq_cons fetch fuel c.fetches b bs hcs
    by_cases hb : b.length = 0
    · have hbs := hemp hb
      subst hbs
      have hb2 : (b.length == 0) = true := by simpa using hb
      simp [drainSync, ResultStreamIterator.next, hloop, hb2]
    · have htail := hne hb
      have hb2 : (b.length == 0) = false := by simpa using hb
      have hrec := ih hd { c with fetches := j + 1 } htail
      simp [drainSync, ResultStreamIterator.next, hloop, hb2, hrec]

/-- Draining the prefetching iterator after the header has been emitted
delivers exactly the chunk sequence offered by the fetch oracle, from any
state consistent with that sequence. -/
theorem drainAsync_ready (env : AsyncDuckDB) (fuel : Nat) :
    ∀ (cs : List Buffer) (hd : Buffer) (pending : Option (Option Buffer)) (c : CallCounts),
      pendingConsistent env.fetchQueryResults fuel pending c.fetches cs →
      drainAsync env fuel cs.length ⟨hd, false, false, pending⟩ c =
        some (cs.map fun b => { done := b.length == 0, value := some b }) := by
  intro cs
  induction cs with
  | nil =>
    intro hd pending c hpc
    rcases hpc with ⟨_, hcs⟩ | ⟨k, _, _, hcs⟩ <;>
      exact absurd rfl (chunkSeq_ne_nil _ _ _ _ hcs)
  | cons b bs ih =>
    intro hd pending c hpc
    obtain ⟨n, hres, hin, hemp, hne⟩ :=
      resolveChunk_step env.fetchQueryResults fuel pending c.fetches b bs hpc
    by_cases hb : b.length = 0
    · have hbs := hemp hb
      subst hbs
      have hb2 : (b.length == 0) = true := by simpa using hb
      simp [drainAsync, AsyncResultStreamIterator.next, hres, hb2]
    · have htail := hne hb
      have hb2 : (b.length == 0) = false := by simpa using hb
      have hpc2 : pendingConsistent env.fetchQueryResults fuel
          (some (env.fetchQueryResults n)) (n + 1) bs :=
        Or.inr ⟨n, rfl, rfl, htail⟩
      have hrec := ih hd (some (env.fetchQueryResults n)) { c with fetches := n + 1 } hpc2
      simp [drainAsync, AsyncResultStreamIterator.next, hres, hb2, hrec]

/-! ## Helper lemmas about the start/poll driver loops -/

theorem syncSendLoop_header (env : DuckDBBindings) (h : Buffer) :
    ∀ (k fuel p s d f q : Nat),
      (∀ m, m < k → env.pollPendingQuery (p + m) = PollResult.ok none) →
      env.pollPendingQuery (p + k) = PollResult.ok (some h) →
      k < fuel →
      syncSendLoop env fuel ⟨s, p, d, f, q⟩ =
        some (Except.ok (ResultStreamIterator.init h), ⟨s, p + k + 1, d, f, q⟩) := by
  intro k
  induction k with
  | zero =>
    intro fuel p s d f q _ hk hfuel
    obtain ⟨fuel, rfl⟩ := Nat.exists_eq_succ_of_ne_zero (by omega : fuel ≠ 0)
    simp at hk
    simp [syncSendLoop, hk]
  | succ k ih =>
    intro fuel p s d f q habs hk hfuel
    obtain ⟨fuel, rfl⟩ := Nat.exists_eq_succ_of_ne_zero (by omega : fuel ≠ 0)
    have h0 : env.pollPendingQuery p = PollResult.ok none := by
      simpa using habs 0 (by omega)
    have habs2 : ∀ m, m < k → env.pollPendingQuery (p + 1 + m) = PollResult.ok none := by
      intro m hm
      rw [show p + 1 + m = p + (m + 1) by omega]
      exact habs (m + 1) (by omega)
    have hk2 : env.pollPendingQuery (p + 1 + k) = PollResult.ok (some h) := by
      rw [show p + 1 + k = p + (k + 1) by omega]
      exact hk
    have hrec := ih fuel (p + 1) s d f q habs2 hk2 (by omega)
    rw [show p + (k + 1) + 1 = p + 1 + k + 1 by omega]
    simpa [syncSendLoop, h0] using hrec

theorem syncSendLoop_err (env : DuckDBBindings) (msg : String) :
    ∀ (k fuel p s d f q : Nat),
      (∀ m, m < k → env.pollPendingQuery (p + m) = PollResult.ok none) →
      env.pollPendingQuery (p + k) = PollResult.err msg →
      k < fuel →
      syncSendLoop env fuel ⟨s, p, d, f, q⟩ =
        some (Except.error
                (if strIncludes msg "worker is not set!" then "Worker has been terminated"
                 else msg),
              ⟨s, p + k + 1, d, f, q⟩) := by
  intro k
  induction k with
  | zero =>
    intro fuel p s d f q _ hk hfuel
    obtain ⟨fuel, rfl⟩ := Nat.exists_eq_succ_of_ne_zero (by omega : fuel ≠ 0)
    simp at hk
    by_cases hm : strIncludes msg "worker is not set!" <;>
      simp [syncSendLoop, hk, hm]
  | succ k ih =>
    intro fuel p s d f q habs hk hfuel
    obtain ⟨fuel, rfl⟩ := Nat.exists_eq_succ_of_ne_zero (by omega : fuel ≠ 0)
    have h0 : env.pollPendingQuery p = PollResult.ok none := by
      simpa using habs 0 (by omega)
    have habs2 : ∀ m, m < k → env.pollPendingQuery (p + 1 + m) = PollResult.ok none := by
      intro m hm
      rw [show p + 1 + m = p + (m + 1) by omega]
      exact habs (m + 1) (by omega)
    have hk2 : env.pollPendingQuery (p + 1 + k) = PollResult.err msg := by
      rw [show p + 1 + k = p + (k + 1) by omega]
      exact hk
    have hrec := ih fuel (p + 1) s d f q habs2 hk2 (by omega)
    rw [show p + (k + 1) + 1 = p + 1 + k + 1 by omega]
    simpa [syncSendLoop, h0] using hrec

theorem syncSendLoop_shape (env : DuckDBBindings) :
    ∀ (fuel : Nat) (c : CallCounts) (res : Except String ResultStreamIterator)
      (c2 : CallCounts),
      syncSendLoop env fuel c = some (res, c2) →
      c2.fetches = c.fetches ∧
        ∀ it, res = Except.ok it → ∃ hh, it = ResultStreamIterator.init hh := by
  intro fuel
  induction fuel with
  | zero => intro c res c2 h; simp [syncSendLoop] at h
  | succ fuel ih =>
    intro c res c2 h
    unfold syncSendLoop at h
    split at h
    · simp only [Option.some.injEq, Prod.mk.injEq] at h
      obtain ⟨h1, h2⟩ := h
      subst h1
      subst h2
      exact ⟨rfl, fun it hit => ⟨_, (Except.ok.inj hit).symm⟩⟩
    · exact ih { c with polls := c.polls + 1 } res c2 h
    · split at h
      · simp only [Option.some.injEq, Prod.mk.injEq] at h
        obtain ⟨h1, h2⟩ := h
        subst h1
        subst h2
        exact ⟨rfl, fun it hit => by simp at hit⟩
      · simp only [Option.some.injEq, Prod.mk.injEq] at h
        obtain ⟨h1, h2⟩ := h
        subst h1
        subst h2
        exact ⟨rfl, fun it hit => by simp at hit⟩

theorem asyncSendLoop_header (env : AsyncDuckDB) (h : Buffer) :
    ∀ (k fuel p d s f q : Nat),
      (∀ i, i ≤ k → env.isDetached (d + i) = false) →
      (∀ m, m < k → env.pollPendingQuery (p + m) = none) →
      env.pollPendingQuery (p + k) = some h →
      k < fuel →
      asyncSendLoop env fuel ⟨s, p, d, f, q⟩ =
        some (AsyncSendOutcome.stream (AsyncResultStreamIterator.init h),
              ⟨s, p + k + 1, d + k + 1, f, q⟩) := by
  intro k
  induction k with
  | zero =>
    intro fuel p d s f q hdet _ hk hfuel
    obtain ⟨fuel, rfl⟩ := Nat.exists_eq_succ_of_ne_zero (by omega : fuel ≠ 0)
    have hd0 : env.isDetached d = false := by simpa using hdet 0 (by omega)
    simp at hk
    simp [asyncSendLoop, hd0, hk]
  | succ k ih =>
    intro fuel p d s f q hdet habs hk hfuel
    obtain ⟨fuel, rfl⟩ := Nat.exists_eq_succ_of_ne_zero (by omega : fuel ≠ 0)
    have hd0 : env.isDetached d = false := by simpa using hdet 0 (by omega)
    have h0 : env.pollPendingQuery p = none := by
      simpa using habs 0 (by omega)
    have hdet2 : ∀ i, i ≤ k → env.isDetached (d + 1 + i) = false := by
      intro i hi
      rw [show d + 1 + i = d + (i + 1) by omega]
      exact hdet (i + 1) (by omega)
    have habs2 : ∀ m, m < k → env.pollPendingQuery (p + 1 + m) = none := by
      intro m hm
      rw [show p + 1 + m = p + (m + 1) by omega]
      exact habs (m + 1) (by omega)
    have hk2 : env.pollPendingQuery (p + 1 + k) = some h := by
      rw [show p + 1 + k = p + (k + 1) by omega]
      exact hk
    have hrec := ih fuel (p + 1) (d + 1) s f q hdet2 habs2 hk2 (by omega)
    rw [show p + (k + 1) + 1 = p + 1 + k + 1 by omega,
        show d + (k + 1) + 1 = d + 1 + k + 1 by omega]
    simpa [asyncSendLoop, hd0, h0] using hrec

theorem asyncSendLoop_detached (env : AsyncDuckDB) :
    ∀ (k fuel p d s f q : Nat),
      (∀ i, i < k → env.isDetached (d + i) = false) →
      env.isDetached (d + k) = true →
      (∀ m, m < k → env.pollPendingQuery (p + m) = none) →
      k < fuel →
      asyncSendLoop env fuel ⟨s, p, d, f, q⟩ =
        some (AsyncSendOutcome.undefinedResult, ⟨s, p + k, d + k + 1, f, q⟩) := by
  intro k
  induction k with
  | zero =>
    intro fuel p d s f q _ hk _ hfuel
    obtain ⟨fuel, rfl⟩ := Nat.exists_eq_succ_of_ne_zero (by omega : fuel ≠ 0)
    simp at hk
    simp [asyncSendLoop, hk]
  | succ k ih =>
    intro fuel p d s f q hdet hk habs hfuel
    obtain ⟨fuel, rfl⟩ := Nat.exists_eq_succ_of_ne_zero (by omega : fuel ≠ 0)
    have hd0 : env.isDetached d = false := by simpa using hdet 0 (by omega)
    have h0 : env.pollPendingQuery p = none := by
      simpa using habs 0 (by omega)
    have hdet2 : ∀ i, i < k → env.isDetached (d + 1 + i) = false := by
      intro i hi
      rw [show d + 1 + i = d + (i + 1) by omega]
      exact hdet (i + 1) (by omega)
    have hk2 : env.isDetached (d + 1 + k) = true := by
      rw [show d + 1 + k = d + (k + 1) by omega]
      exact hk
    have habs2 : ∀ m, m < k → env.pollPendingQuery (p + 1 + m) = none := by
      intro m hm
      rw [show p + 1 + m = p + (m + 1) by omega]
      exact habs (m + 1) (by omega)
    have hrec := ih fuel (p + 1) (d + 1) s f q hdet2 hk2 habs2 (by omega)
    rw [show p + (k + 1) = p + 1 + k by omega,
        show d + (k + 1) + 1 = d + 1 + k + 1 by omega]
    simpa [asyncSendLoop, hd0, h0] using hrec

theorem asyncSendLoop_shape (env : AsyncDuckDB) :
    ∀ (fuel : Nat) (c : CallCounts) (res : AsyncSendOutcome) (c2 : CallCounts),
      asyncSendLoop env fuel c = some (res, c2) →
      c2.fetches = c.fetches ∧
        ∀ it, res = AsyncSendOutcome.stream it → ∃ hh, it = AsyncResultStreamIterator.init hh := by
  intro fuel
  induction fuel with
  | zero => intro c res c2 h; simp [asyncSendLoop] at h
  | succ fuel ih =>
    intro c res c2 h
    unfold asyncSendLoop at h
    split at h
    · simp only [Option.some.injEq, Prod.mk.injEq] at h
      obtain ⟨h1, h2⟩ := h
      subst h1
      subst h2
      exact ⟨rfl, fun it hit => by simp at hit⟩
    · split at h
      · simp only [Option.some.injEq, Prod.mk.injEq] at h
        obtain ⟨h1, h2⟩ := h
        subst h1
        subst h2
        exact ⟨rfl, fun it hit => ⟨_, (AsyncSendOutcome.stream.inj hit).symm⟩⟩
      · exact ih { c with detChecks := c.detChecks + 1, polls := c.polls + 1 } res c2 h

/-- Number of outstanding (issued but not yet awaited) fetches held by a
prefetching iterator: the `_inFlight` slot holds at most one. -/
def pendingFetches (it : AsyncResultStreamIterator) : Nat :=
  if it.inFlight.isSome then 1 else 0

theorem resolveChunk_le (fetch : Nat → Option Buffer) (fuel : Nat)
    (pending : Option (Option Buffer)) (i : Nat) (b : Buffer) (n : Nat)
    (h : resolveChunk fetch fuel pending i = some (b, n)) : i ≤ n := by
  cases pending with
  | none =>
    exact Nat.le_of_lt (fetchWhileAbsent_lt fetch fuel i b n h)
  | some ov =>
    cases ov with
    | none =>
      exact Nat.le_of_lt (fetchWhileAbsent_lt fetch fuel i b n h)
    | some b2 =>
      simp [resolveChunk] at h
      omega

/-- Whenever a non-first, non-depleted `next` call on the prefetching
iterator returns a non-final chunk, the fetch for the following chunk has
already been issued: the resulting `_inFlight` slot holds the bindings
call whose index is the last fetch-call count used. -/
theorem asyncNext_prefetch (env : AsyncDuckDB) (fuel : Nat)
    (it : AsyncResultStreamIterator) (c : CallCounts) (r : IterResult)
    (it2 : AsyncResultStreamIterator) (c2 : CallCounts)
    (hfirst : it.first = false) (hdep : it.depleted = false)
    (hnext : AsyncResultStreamIterator.next env fuel it c = some (r, it2, c2))
    (hdone : r.done = false) :
    it2.inFlight = some (env.fetchQueryResults (c2.fetches - 1)) ∧
      c.fetches < c2.fetches := by
  cases hres : resolveChunk env.fetchQueryResults fuel it.inFlight c.fetches with
  | none =>
    unfold AsyncResultStreamIterator.next at hnext
    rw [hfirst, hdep] at hnext
    simp [hres] at hnext
  | some bn =>
    obtain ⟨b, n⟩ := bn
    have hle := resolveChunk_le env.fetchQueryResults fuel it.inFlight c.fetches b n hres
    unfold AsyncResultStreamIterator.next at hnext
    rw [hfirst, hdep] at hnext
    by_cases hb : (b.length == 0) = true
    · simp [hres, hb] at hnext
      obtain ⟨h1, _, _⟩ := hnext
      rw [← h1] at hdone
      simp at hdone
    · simp [hres, hb] at hnext
      obtain ⟨h1, h2, h3⟩ := hnext
      subst h2
      subst h3
      exact ⟨rfl, Nat.lt_succ_of_le hle⟩

theorem asyncSendLoop_start_irrel (env : AsyncDuckDB) (u : Bool → Option Buffer) :
    ∀ (fuel : Nat) (c : CallCounts),
      asyncSendLoop { env with startPendingQuery := u } fuel c =
        asyncSendLoop env fuel c := by
  intro fuel
  induction fuel with
  | zero => intro c; rfl
  | succ fuel ih =>
    intro c
    unfold asyncSendLoop
    by_cases hd : env.isDetached c.detChecks
    · simp [hd]
    · simp only [hd]
      cases hp : env.pollPendingQuery c.polls with
      | some h => simp [hp]
      | none => simp [hp, ih]

theorem syncSendLoop_start_irrel (env : DuckDBBindings) (u : Bool → Option Buffer) :
    ∀ (fuel : Nat) (c : CallCounts),
      syncSendLoop { env with startPendingQuery := u } fuel c =
        syncSendLoop env fuel c := by
  intro fuel
  induction fuel with
  | zero => intro c; rfl
  | succ fuel ih =>
    intro c
    unfold syncSendLoop
    cases hp : env.pollPendingQuery c.polls with
    | ok oh =>
      cases oh with
      | some h => simp [hp]
      | none => simp [hp, ih]
    | err msg => simp [hp]

/-! ## Claim theorems -/

/-- Bindings surface for the C1 counterexample: `startPendingQuery` is
absent and the link is detached from the outset. -/
def envC1 : AsyncDuckDB :=
  ⟨fun _ => none, fun _ => none, fun _ => true, fun _ => none, []⟩

/-- C1 counterexample: with the link detached before any header exists,
`AsyncDuckDBConnection.send` does not fail; it runs the
`console.error` branch and returns `undefined as any`, i.e. the caller
receives a silently-returned undefined stream (after one start call and
one detach check, zero polls).  This falsifies the claim that the failure
is surfaced to the caller and that an undefined stream is never returned.
The claim is right that no iterator is constructed. -/
theorem C1_counterexample :
    AsyncDuckDBConnection.send envC1 false 5 =
      some (AsyncSendOutcome.undefinedResult, ⟨1, 0, 1, 0, 0⟩) := rfl

/-- C1 (amended): if `isDetached()` becomes true while the driver is
waiting for a header (start returned absent and all `k` polls so far
returned absent), `send` stops polling, constructs no iterator, and
returns the undefined result to the caller after logging to the console;
no link-detached error is raised.  The call counts record one start, `k`
polls and `k + 1` detach checks. -/
theorem C1_amended_theorem (env : AsyncDuckDB) (flag : Bool) (fuel k : Nat)
    (hstart : env.startPendingQuery flag = none)
    (hdet : ∀ i, i < k → env.isDetached i = false)
    (hdetk : env.isDetached k = true)
    (hpoll : ∀ m, m < k → env.pollPendingQuery m = none)
    (hfuel : k < fuel) :
    AsyncDuckDBConnection.send env flag fuel =
      some (AsyncSendOutcome.undefinedResult, ⟨1, k, k + 1, 0, 0⟩) := by
  have hmain : AsyncDuckDBConnection.send env flag fuel =
      asyncSendLoop env fuel ⟨1, 0, 0, 0, 0⟩ := by
    unfold AsyncDuckDBConnection.send
    rw [hstart]
    rfl
  have hloop := asyncSendLoop_detached env k fuel 0 0 1 0 0
    (fun i hi => by simpa using hdet i hi)
    (by simpa using hdetk)
    (fun m hm => by simpa using hpoll m hm)
    hfuel
  rw [hmain]
  simpa using hloop

/-- Bindings surface for the C1 witness: one absent poll happens before
the link detaches. -/
def envC1w : AsyncDuckDB :=
  ⟨fun _ => none, fun _ => none, fun n => decide (1 ≤ n), fun _ => none, []⟩

theorem C1_witness :
    AsyncDuckDBConnection.send envC1w false 5 =
      some (AsyncSendOutcome.undefinedResult, ⟨1, 1, 2, 0, 0⟩) :=
  C1_amended_theorem envC1w false 5 1 rfl
    (fun i hi => by
      have h0 : i = 0 := by omega
      subst h0
      rfl)
    rfl
    (fun m _ => rfl)
    (by omega)

/-- Bindings surface for the C2 counterexample. -/
def envC2 : AsyncDuckDB :=
  ⟨fun _ => none, fun _ => none, fun _ => false, fun _ => some [1], [5, 6]⟩

/-- C2 counterexample: immediately after the `next()` call that emits the
header returns, the `_inFlight` placeholder is still null and no
`fetchQueryResults` call has been issued (the fetch count is unchanged at
zero), falsifying the claim that the header-emitting call leaves a
non-null in-flight prefetch. -/
theorem C2_counterexample :
    AsyncResultStreamIterator.next envC2 5
        (AsyncResultStreamIterator.init [5, 6]) CallCounts.zero =
      some ({ done := false, value := some [5, 6] },
            ⟨[5, 6], false, false, none⟩, CallCounts.zero) := rfl

/-- C2 (amended): the `next()` call that emits the header returns at once
with the `_first` flag cleared, the `_inFlight` placeholder still null and
the call counts untouched; the eager prefetch is only started by a later
`next()` call that returns a chunk. -/
theorem C2_amended_theorem (env : AsyncDuckDB) (fuel : Nat) (h : Buffer)
    (c : CallCounts) :
    AsyncResultStreamIterator.next env fuel (AsyncResultStreamIterator.init h) c =
      some ({ done := false, value := some h }, ⟨h, false, false, none⟩, c) := by
  simp [AsyncResultStreamIterator.next, AsyncResultStreamIterator.init]

/-- C3: for every query whose start/poll sequence eventually yields a
header, `send` hands out a freshly-initialised iterator with no fetch yet
performed (first two conjuncts, blocking and prefetching variants); for
every fetch oracle that eventually offers a zero-length buffer, draining
either iterator yields the header as element 0 with `done = false`,
followed by every fetched chunk in order, each flagged final exactly when
it is zero-length (third and fourth conjuncts); and the offered chunk
sequence consists of non-empty chunks followed by exactly one zero-length
sentinel at the end, so `done = true` is never produced before the
sentinel (fifth conjunct). -/
theorem C3_theorem :
    (∀ (env : DuckDBBindings) (flag : Bool) (fuel : Nat)
        (res : Except String ResultStreamIterator) (c : CallCounts),
        DuckDBConnection.send env flag fuel = some (res, c) →
        c.fetches = 0 ∧
          ∀ it, res = Except.ok it → ∃ hh, it = ResultStreamIterator.init hh) ∧
    (∀ (env : AsyncDuckDB) (flag : Bool) (fuel : Nat)
        (res : AsyncSendOutcome) (c : CallCounts),
        AsyncDuckDBConnection.send env flag fuel = some (res, c) →
        c.fetches = 0 ∧
          ∀ it, res = AsyncSendOutcome.stream it →
            ∃ hh, it = AsyncResultStreamIterator.init hh) ∧
    (∀ (fetch : Nat → Option Buffer) (fuel : Nat) (hd : Buffer)
        (cs : List Buffer) (c : CallCounts),
        c.fetches = 0 →
        chunkSeq fetch 0 fuel = some cs →
        drainSync fetch fuel (cs.length + 1) (ResultStreamIterator.init hd) c =
          some ({ done := false, value := some hd } ::
                cs.map fun b => { done := b.length == 0, value := some b })) ∧
    (∀ (env : AsyncDuckDB) (fuel : Nat) (hd : Buffer)
        (cs : List Buffer) (c : CallCounts),
        c.fetches = 0 →
        chunkSeq env.fetchQueryResults 0 fuel = some cs →
        drainAsync env fuel (cs.length + 1) (AsyncResultStreamIterator.init hd) c =
          some ({ done := false, value := some hd } ::
                cs.map fun b => { done := b.length == 0, value := some b })) ∧
    (∀ (fetch : Nat → Option Buffer) (fuel i : Nat) (cs : List Buffer),
        chunkSeq fetch i fuel = some cs →
        ∃ front, cs = front ++ [([] : Buffer)] ∧ ∀ b ∈ front, b ≠ ([] : Buffer)) := by
  refine ⟨?_, ?_, ?_, ?_, ?_⟩
  · intro env flag fuel res c h
    unfold DuckDBConnection.send at h
    split at h
    · simp only [Option.some.injEq, Prod.mk.injEq] at h
      obtain ⟨h1, h2⟩ := h
      subst h1
      subst h2
      exact ⟨rfl, fun it hit => ⟨_, (Except.ok.inj hit).symm⟩⟩
    · exact syncSendLoop_shape env fuel { CallCounts.zero with starts := 1 } res c h
  · intro env flag fuel res c h
    unfold AsyncDuckDBConnection.send at h
    split at h
    · simp only [Option.some.injEq, Prod.mk.injEq] at h
      obtain ⟨h1, h2⟩ := h
      subst h1
      subst h2
      exact ⟨rfl, fun it hit => ⟨_, (AsyncSendOutcome.stream.inj hit).symm⟩⟩
    · exact asyncSendLoop_shape env fuel { CallCounts.zero with starts := 1 } res c h
  · intro fetch fuel hd cs c hc0 hcs
    have hready := drainSync_ready fetch fuel cs hd c (by rw [hc0]; exact hcs)
    simp [drainSync, ResultStreamIterator.next, ResultStreamIterator.init, hready]
  · intro env fuel hd cs c hc0 hcs
    have hready := drainAsync_ready env fuel cs hd none c
      (Or.inl ⟨rfl, by rw [hc0]; exact hcs⟩)
    simp [drainAsync, AsyncResultStreamIterator.next, AsyncResultStreamIterator.init, hready]
  · intro fetch fuel i cs h
    exact chunkSeq_split fetch fuel i cs h

/-- Fetch oracle for scenario A of C3: a 20-byte chunk, then the
zero-length sentinel. -/
def fetchA : Nat → Option Buffer :=
  fun n => if n = 0 then some (List.replicate 20 0) else if n = 1 then some [] else none

/-- Async bindings surface for scenario A of C3. -/
def envA : AsyncDuckDB :=
  ⟨fun _ => none, fun _ => none, fun _ => false, fetchA, []⟩

theorem C3_witness :
    drainSync fetchA 2 3 (ResultStreamIterator.init (List.replicate 10 0))
        CallCounts.zero =
      some [{ done := false, value := some (List.replicate 10 0) },
            { done := false, value := some (List.replicate 20 0) },
            { done := true, value := some [] }] ∧
    drainAsync envA 2 3 (AsyncResultStreamIterator.init (List.replicate 10 0))
        CallCounts.zero =
      some [{ done := false, value := some (List.replicate 10 0) },
            { done := false, value := some (List.replicate 20 0) },
            { done := true, value := some [] }] := by
  constructor
  · have h := C3_theorem.2.2.1 fetchA 2 (List.replicate 10 0)
      [List.replicate 20 0, []] CallCounts.zero rfl rfl
    exact h.trans (by decide)
  · have h := C3_theorem.2.2.2.1 envA 2 (List.replicate 10 0)
      [List.replicate 20 0, []] CallCounts.zero rfl rfl
    exact h.trans (by decide)

/-- C4: the prefetching iterator holds at most one outstanding fetch at
every point (the single `_inFlight` slot, first conjunct), and whenever a
non-first, non-depleted `next()` call hands a non-final chunk `k` to the
caller, the fetch for chunk `k + 1` has already been issued: the returned
state holds it in flight and the fetch-call count has strictly
increased. -/
theorem C4_theorem :
    (∀ it : AsyncResultStreamIterator, pendingFetches it ≤ 1) ∧
    (∀ (env : AsyncDuckDB) (fuel : Nat) (it : AsyncResultStreamIterator)
        (c : CallCounts) (r : IterResult) (it2 : AsyncResultStreamIterator)
        (c2 : CallCounts),
        it.first = false → it.depleted = false →
        AsyncResultStreamIterator.next env fuel it c = some (r, it2, c2) →
        r.done = false →
        it2.inFlight = some (env.fetchQueryResults (c2.fetches - 1)) ∧
          c.fetches < c2.fetches) := by
  constructor
  · intro it
    unfold pendingFetches
    split <;> omega
  · intro env fuel it c r it2 c2 h1 h2 hnext hdone
    exact asyncNext_prefetch env fuel it c r it2 c2 h1 h2 hnext hdone

/-- Bindings surface for the C4 witness: every fetch yields a fresh
non-empty chunk. -/
def envC4 : AsyncDuckDB :=
  ⟨fun _ => none, fun _ => none, fun _ => false, fun n => some [n + 1], []⟩

theorem C4_witness :
    pendingFetches ⟨[9], false, false, some (some [2])⟩ ≤ 1 ∧
      ((⟨[9], false, false, some (some [2])⟩ : AsyncResultStreamIterator).inFlight =
          some (envC4.fetchQueryResults
            ((⟨0, 0, 0, 2, 0⟩ : CallCounts).fetches - 1)) ∧
        CallCounts.zero.fetches < (⟨0, 0, 0, 2, 0⟩ : CallCounts).fetches) :=
  ⟨C4_theorem.1 ⟨[9], false, false, some (some [2])⟩,
   C4_theorem.2 envC4 5 ⟨[9], false, false, none⟩ CallCounts.zero
     { done := false, value := some [1] } ⟨[9], false, false, some (some [2])⟩
     ⟨0, 0, 0, 2, 0⟩ rfl rfl rfl rfl⟩

/-- C5: in the blocking variant, when a poll throws, `send` rejects: an
error whose message includes the worker-is-not-set marker is replaced by
the distinguishable `Worker has been terminated` failure, and any other
error message is propagated to the caller unchanged. -/
theorem C5_theorem (env : DuckDBBindings) (flag : Bool) (fuel k : Nat)
    (msg : String)
    (hstart : env.startPendingQuery flag = none)
    (habs : ∀ m, m < k → env.pollPendingQuery m = PollResult.ok none)
    (hk : env.pollPendingQuery k = PollResult.err msg)
    (hfuel : k < fuel) :
    DuckDBConnection.send env flag fuel =
      some (Except.error
              (if strIncludes msg "worker is not set!" then "Worker has been terminated"
               else msg),
            ⟨1, k + 1, 0, 0, 0⟩) := by
  have hmain : DuckDBConnection.send env flag fuel =
      syncSendLoop env fuel ⟨1, 0, 0, 0, 0⟩ := by
    unfold DuckDBConnection.send
    rw [hstart]
    rfl
  have hloop := syncSendLoop_err env msg k fuel 0 1 0 0 0
    (fun m hm => by simpa using habs m hm)
    (by simpa using hk)
    hfuel
  rw [hmain]
  simpa using hloop

/-- Bindings surface for the C5 witness: the very first poll throws the
worker-is-gone error. -/
def envC5 : DuckDBBindings :=
  ⟨fun _ => none,
   fun _ => PollResult.err "cannot send a message since the worker is not set!",
   fun _ => none, []⟩

theorem C5_witness :
    DuckDBConnection.send envC5 false 3 =
      some (Except.error "Worker has been terminated", ⟨1, 1, 0, 0, 0⟩) := by
  have h := C5_theorem envC5 false 3 0
    "cannot send a message since the worker is not set!" rfl
    (fun m hm => absurd hm (by omega)) rfl (by omega)
  exact h

/-- C6: in both variants, once `_depleted` has been set, `next()` returns
`done = true` with no payload, leaves the iterator state untouched
(so every subsequent call behaves identically) and makes no call to the
bindings surface: the call counts are returned unchanged. -/
theorem C6_theorem :
    (∀ (env : AsyncDuckDB) (fuel : Nat) (it : AsyncResultStreamIterator)
        (c : CallCounts),
        it.first = false → it.depleted = true →
        AsyncResultStreamIterator.next env fuel it c =
          some ({ done := true, value := none }, it, c)) ∧
    (∀ (fetch : Nat → Option Buffer) (fuel : Nat) (it : ResultStreamIterator)
        (c : CallCounts),
        it.first = false → it.depleted = true →
        ResultStreamIterator.next fetch fuel it c =
          some ({ done := true, value := none }, it, c)) := by
  constructor
  · intro env fuel it c h1 h2
    simp [AsyncResultStreamIterator.next, h1, h2]
  · intro fetch fuel it c h1 h2
    simp [ResultStreamIterator.next, h1, h2]

/-- Bindings surface for the C6 witness. -/
def envC6 : AsyncDuckDB :=
  ⟨fun _ => none, fun _ => none, fun _ => false, fun _ => some [1], []⟩

theorem C6_witness :
    AsyncResultStreamIterator.next envC6 3 ⟨[7], false, true, none⟩ CallCounts.zero =
        some ({ done := true, value := none }, ⟨[7], false, true, none⟩, CallCounts.zero) ∧
      ResultStreamIterator.next (fun _ => some [1]) 3 ⟨[7], false, true⟩ CallCounts.zero =
        some ({ done := true, value := none }, ⟨[7], false, true⟩, CallCounts.zero) :=
  ⟨C6_theorem.1 envC6 3 ⟨[7], false, true, none⟩ CallCounts.zero rfl rfl,
   C6_theorem.2 (fun _ => some [1]) 3 ⟨[7], false, true⟩ CallCounts.zero rfl rfl⟩

/-- C7: for every non-first, non-depleted `next()` call in either variant
that returns, the value handed to the caller is a real buffer, never
absent (first two conjuncts); and absent fetch returns are retried
transparently: if the oracle answers absent `k` times and then offers a
buffer, the retry loop returns exactly that buffer (third conjunct), and
the blocking `next()` hands it to the caller (fourth conjunct). -/
theorem C7_theorem :
    (∀ (fetch : Nat → Option Buffer) (fuel : Nat) (it : ResultStreamIterator)
        (c : CallCounts) (r : IterResult) (it2 : ResultStreamIterator)
        (c2 : CallCounts),
        it.first = false → it.depleted = false →
        ResultStreamIterator.next fetch fuel it c = some (r, it2, c2) →
        ∃ b, r.value = some b) ∧
    (∀ (env : AsyncDuckDB) (fuel : Nat) (it : AsyncResultStreamIterator)
        (c : CallCounts) (r : IterResult) (it2 : AsyncResultStreamIterator)
        (c2 : CallCounts),
        it.first = false → it.depleted = false →
        AsyncResultStreamIterator.next env fuel it c = some (r, it2, c2) →
        ∃ b, r.value = some b) ∧
    (∀ (fetch : Nat → Option Buffer) (k fuel i : Nat) (b : Buffer),
        (∀ m, m < k → fetch (i + m) = none) → fetch (i + k) = some b →
        k < fuel →
        fetchWhileAbsent fetch fuel i = some (b, i + k + 1)) ∧
    (∀ (fetch : Nat → Option Buffer) (k fuel : Nat) (b hd : Buffer)
        (c : CallCounts),
        (∀ m, m < k → fetch (c.fetches + m) = none) →
        fetch (c.fetches + k) = some b →
        k < fuel →
        ∃ it2 c2, ResultStreamIterator.next fetch fuel ⟨hd, false, false⟩ c =
          some ({ done := b.length == 0, value := some b }, it2, c2)) := by
  refine ⟨?_, ?_, ?_, ?_⟩
  · intro fetch fuel it c r it2 c2 h1 h2 hnext
    unfold ResultStreamIterator.next at hnext
    rw [h1, h2] at hnext
    cases hloop : fetchWhileAbsent fetch fuel c.fetches with
    | none => simp [hloop] at hnext
    | some bn =>
      obtain ⟨b, n⟩ := bn
      simp [hloop] at hnext
      exact ⟨b, by rw [← hnext.1]⟩
  · intro env fuel it c r it2 c2 h1 h2 hnext
    unfold AsyncResultStreamIterator.next at hnext
    rw [h1, h2] at hnext
    cases hres : resolveChunk env.fetchQueryResults fuel it.inFlight c.fetches with
    | none => simp [hres] at hnext
    | some bn =>
      obtain ⟨b, n⟩ := bn
      by_cases hb : (b.length == 0) = true
      · simp [hres, hb] at hnext
        exact ⟨b, by rw [← hnext.1]⟩
      · simp [hres, hb] at hnext
        exact ⟨b, by rw [← hnext.1]⟩
  · intro fetch k fuel i b habs hk hfuel
    exact fetchWhileAbsent_skips fetch k fuel i b habs hk hfuel
  · intro fetch k fuel b hd c habs hk hfuel
    have hloop := fetchWhileAbsent_skips fetch k fuel c.fetches b habs hk hfuel
    refine ⟨⟨hd, false, b.length == 0⟩, { c with fetches := c.fetches + k + 1 }, ?_⟩
    simp [ResultStreamIterator.next, hloop]

/-- Fetch oracle for the C7 witness: absent twice, then a chunk. -/
def fetchC7 : Nat → Option Buffer :=
  fun n => if n < 2 then none else some [5]

theorem C7_witness :
    ∃ it2 c2, ResultStreamIterator.next fetchC7 5 ⟨[3], false, false⟩ CallCounts.zero =
      some ({ done := false, value := some [5] }, it2, c2) :=
  C7_theorem.2.2.2 fetchC7 2 5 [5] [3] CallCounts.zero
    (fun m hm => by
      simp only [fetchC7, CallCounts.zero, Nat.zero_add]
      rw [if_pos hm])
    rfl
    (by omega)

/-- C8: if `startPendingQuery` is absent, the first poll is absent and the
second poll returns a header, with the link never detached, then `send`
performs exactly 2 `pollPendingQuery` calls before returning that header,
in both variants (the counts record 1 start and 2 polls; the prefetching
variant additionally performs 2 detach checks). -/
theorem C8_theorem :
    (∀ (env : AsyncDuckDB) (flag : Bool) (fuel : Nat) (h : Buffer),
        env.startPendingQuery flag = none →
        env.pollPendingQuery 0 = none →
        env.pollPendingQuery 1 = some h →
        env.isDetached 0 = false →
        env.isDetached 1 = false →
        1 < fuel →
        AsyncDuckDBConnection.send env flag fuel =
          some (AsyncSendOutcome.stream (AsyncResultStreamIterator.init h),
                ⟨1, 2, 2, 0, 0⟩)) ∧
    (∀ (env : DuckDBBindings) (flag : Bool) (fuel : Nat) (h : Buffer),
        env.startPendingQuery flag = none →
        env.pollPendingQuery 0 = PollResult.ok none →
        env.pollPendingQuery 1 = PollResult.ok (some h) →
        1 < fuel →
        DuckDBConnection.send env flag fuel =
          some (Except.ok (ResultStreamIterator.init h), ⟨1, 2, 0, 0, 0⟩)) := by
  constructor
  · intro env flag fuel h hstart hp0 hp1 hd0 hd1 hfuel
    have hmain : AsyncDuckDBConnection.send env flag fuel =
        asyncSendLoop env fuel ⟨1, 0, 0, 0, 0⟩ := by
      unfold AsyncDuckDBConnection.send
      rw [hstart]
      rfl
    have hloop := asyncSendLoop_header env h 1 fuel 0 0 1 0 0
      (fun i hi => by
        rcases (by omega : i = 0 ∨ i = 1) with rfl | rfl
        · simpa using hd0
        · simpa using hd1)
      (fun m hm => by
        have h0 : m = 0 := by omega
        subst h0
        simpa using hp0)
      (by simpa using hp1)
      hfuel
    rw [hmain]
    exact hloop
  · intro env flag fuel h hstart hp0 hp1 hfuel
    have hmain : DuckDBConnection.send env flag fuel =
        syncSendLoop env fuel ⟨1, 0, 0, 0, 0⟩ := by
      unfold DuckDBConnection.send
      rw [hstart]
      rfl
    have hloop := syncSendLoop_header env h 1 fuel 0 1 0 0 0
      (fun m hm => by
        have h0 : m = 0 := by omega
        subst h0
        simpa using hp0)
      (by simpa using hp1)
      hfuel
    rw [hmain]
    exact hloop

/-- Async bindings surface for the C8 witness. -/
def envC8a : AsyncDuckDB :=
  ⟨fun _ => none, fun n => if n = 0 then none else some [4], fun _ => false,
   fun _ => none, []⟩

/-- Blocking bindings surface for the C8 witness. -/
def envC8s : DuckDBBindings :=
  ⟨fun _ => none,
   fun n => if n = 0 then PollResult.ok none else PollResult.ok (some [4]),
   fun _ => none, []⟩

theorem C8_witness :
    AsyncDuckDBConnection.send envC8a false 4 =
        some (AsyncSendOutcome.stream (AsyncResultStreamIterator.init [4]),
              ⟨1, 2, 2, 0, 0⟩) ∧
      DuckDBConnection.send envC8s false 4 =
        some (Except.ok (ResultStreamIterator.init [4]), ⟨1, 2, 0, 0, 0⟩) :=
  ⟨C8_theorem.1 envC8a false 4 [4] rfl rfl rfl rfl rfl (by omega),
   C8_theorem.2 envC8s false 4 [4] rfl rfl rfl (by omega)⟩

/-- C9: the prepared-statement `send` obtains its header by a single
`sendPrepared` call and wraps it directly in a freshly-initialised result
stream iterator; the call counts show one `sendPrepared` call and zero
`startPendingQuery`, `pollPendingQuery`, `isDetached` and
`fetchQueryResults` calls, in both variants. -/
theorem C9_theorem (aenv : AsyncDuckDB) (senv : DuckDBBindings) :
    AsyncPreparedStatement.send aenv =
        (AsyncResultStreamIterator.init aenv.sendPrepared, ⟨0, 0, 0, 0, 1⟩) ∧
      PreparedStatement.send senv =
        (ResultStreamIterator.init senv.sendPrepared, ⟨0, 0, 0, 0, 1⟩) :=
  ⟨rfl, rfl⟩

/-- C10: calling `send(text)` without the `allowStreamResult` argument
behaves identically to `send(text, false)` in both variants (first two
conjuncts), and the defaulted call consults `startPendingQuery` only at
`false`: replacing the start oracle by any other oracle that agrees at
`false` leaves the result unchanged (last two conjuncts), so the
non-streaming mode is the default. -/
theorem C10_theorem :
    (∀ (env : AsyncDuckDB) (fuel : Nat),
        AsyncDuckDBConnection.sendDefault env fuel =
          AsyncDuckDBConnection.send env false fuel) ∧
    (∀ (env : DuckDBBindings) (fuel : Nat),
        DuckDBConnection.sendDefault env fuel = DuckDBConnection.send env false fuel) ∧
    (∀ (env : AsyncDuckDB) (u : Bool → Option Buffer) (fuel : Nat),
        u false = env.startPendingQuery false →
        AsyncDuckDBConnection.sendDefault { env with startPendingQuery := u } fuel =
          AsyncDuckDBConnection.sendDefault env fuel) ∧
    (∀ (env : DuckDBBindings) (u : Bool → Option Buffer) (fuel : Nat),
        u false = env.startPendingQuery false →
        DuckDBConnection.sendDefault { env with startPendingQuery := u } fuel =
          DuckDBConnection.sendDefault env fuel) := by
  refine ⟨fun env fuel => rfl, fun env fuel => rfl, ?_, ?_⟩
  · intro env u fuel hu
    unfold AsyncDuckDBConnection.sendDefault AsyncDuckDBConnection.send
    cases hs : env.startPendingQuery false with
    | some hh =>
      rw [hs] at hu
      simp [hu, hs]
    | none =>
      rw [hs] at hu
      simp [hu, hs, asyncSendLoop_start_irrel]
  · intro env u fuel hu
    unfold DuckDBConnection.sendDefault DuckDBConnection.send
    cases hs : env.startPendingQuery false with
    | some hh =>
      rw [hs] at hu
      simp [hu, hs]
    | none =>
      rw [hs] at hu
      simp [hu, hs, syncSendLoop_start_irrel]

/-- Async bindings surface for the C10 witness. -/
def envC10 : AsyncDuckDB :=
  ⟨fun _ => some [2], fun _ => none, fun _ => false, fun _ => none, []⟩

/-- Alternative start oracle for the C10 witness, agreeing with `envC10`
only at `false`. -/
def uC10 : Bool → Option Buffer :=
  fun b => if b then none else some [2]

theorem C10_witness :
    AsyncDuckDBConnection.sendDefault { envC10 with startPendingQuery := uC10 } 3 =
      AsyncDuckDBConnection.sendDefault envC10 3 :=
  C10_theorem.2.2.1 envC10 uC10 3 rfl
